import Mathlib

/-!
Verification development for the parotia emotion-aware recommendation engine
(FastAPI backend under `backend/app`).

The Python services are shallowly embedded as pure Lean functions:

* numpy float vectors become rational vectors (`Vec := List ℚ`); all quantities
  the claims compare (inner products, averages, confidences, rounded scores)
  are exact rational values of the same formulas the code computes;
* the sentence-transformer model is an opaque parameter `encode : String → Vec`
  (the code treats its output as an arbitrary, not necessarily unit, vector —
  it explicitly re-normalizes wherever normalization is wanted);
* TMDB and the relational store are opaque parameters (`fetch` functions,
  explicit state records); the Redis cache is threaded as an explicit value;
* `random.shuffle` is modelled by a caller-supplied permutation `σ`;
* thread pools only reorder work: `_stable_page_enrich_single` re-sorts chunk
  results by candidate index before appending, so its output equals the
  sequential in-order scan used here.

`search_similar_content` divides the query by its L2 norm before the FAISS
inner-product search (embedding_service.py:257), so the score the code returns
for a raw query `q` and stored vector `v` is `dot q v / ‖q‖₂`.  Since `‖q‖₂` is
a positive constant of the whole search, rankings, filters and band grouping in
the model work directly with the numerator `dot q v`; theorems whose statements
depend on the numeric score value carry the hypothesis `normSq q = 1`, i.e.
they are stated for the (rational representative of the) normalized query,
and scale invariance of the search itself is proved separately.
-/

unseal Rat.add Rat.mul Rat.sub Rat.inv

namespace Parotia

/-! ## Rational vectors (numpy arrays) -/

/-- An embedding vector (numpy float array) as a list of rationals. -/
abbrev Vec := List ℚ

/-- Scalar multiple `c * v` (numpy broadcasting). -/
def vscale (c : ℚ) (v : Vec) : Vec := v.map (fun x => c * x)

/-- Elementwise sum `a + b` (numpy broadcasting). -/
def vadd (a b : Vec) : Vec := List.zipWith (fun x y => x + y) a b

/-- Elementwise quotient `v / c` (numpy broadcasting). -/
def vdivs (v : Vec) (c : ℚ) : Vec := v.map (fun x => x / c)

/-- Inner product `np.dot a b`. -/
def dot (a b : Vec) : ℚ := (List.zipWith (fun x y => x * y) a b).sum

/-- Squared L2 norm: `np.linalg.norm(v) ** 2`. -/
def normSq (v : Vec) : ℚ := dot v v

/-- Real interpretation of a rational vector. -/
def vecR (v : Vec) : List ℝ := v.map (fun q => (q : ℝ))

/-- `u` is the L2 normalization of `m`: a positive real rescaling of `m`
with unit squared norm.  (`normalize(m) = m / ‖m‖₂` is the unique such
vector when `m ≠ 0`.) -/
def IsNormalizeOf (m u : Vec) : Prop :=
  ∃ c : ℝ, 0 < c ∧ vecR u = (vecR m).map (fun x => c * x) ∧
    ((vecR u).map (fun x => x * x)).sum = 1

/-- Python's built-in `round`: nearest integer, ties to the even integer. -/
def pyRound (x : ℚ) : ℤ :=
  if x - ⌊x⌋ < 1/2 then ⌊x⌋
  else if 1/2 < x - ⌊x⌋ then ⌊x⌋ + 1
  else if ⌊x⌋ % 2 = 0 then ⌊x⌋ else ⌊x⌋ + 1

theorem pyRound_ge_floor (x : ℚ) : ⌊x⌋ ≤ pyRound x := by
  unfold pyRound
  split_ifs <;> omega

theorem pyRound_le_floor_add_one (x : ℚ) : pyRound x ≤ ⌊x⌋ + 1 := by
  unfold pyRound
  split_ifs <;> omega

theorem pyRound_mono {x y : ℚ} (h : x ≤ y) : pyRound x ≤ pyRound y := by
  rcases lt_or_eq_of_le (Int.floor_le_floor h) with hf | hf
  · calc pyRound x ≤ ⌊x⌋ + 1 := pyRound_le_floor_add_one x
      _ ≤ ⌊y⌋ := by omega
      _ ≤ pyRound y := pyRound_ge_floor y
  · unfold pyRound
    rw [hf]
    have hxy : x - ⌊y⌋ ≤ y - ⌊y⌋ := by linarith
    split_ifs <;> first | omega | linarith

theorem pyRound_intCast (n : ℤ) : pyRound (n : ℚ) = n := by
  unfold pyRound
  rw [Int.floor_intCast]
  norm_num

/-! ## Scheduler cursor: `continue_bulk_popular`
(recommendation_service.py:1223-1245, driving `bulk_populate_popular`,
recommendation_service.py:1163-1221) -/

/-- `int(last_page_raw) if isinstance(...) and str(last_page_raw).isdigit() else 0`:
the values ever stored under `tmdb:ingest:popular:{ct}:last_page` are the
natural end pages, and a missing key parses to 0. -/
def last_page_of (cursor : Option ℕ) : ℕ := cursor.getD 0

/-- `start_page = max(1, last_page + 1)`. -/
def start_page_of (last : ℕ) : ℕ := max 1 (last + 1)

/-- `end_page = min(500, start_page + batch_pages - 1)` (for `start ≥ 1` the
truncated ℕ subtraction agrees with Python's). -/
def end_page_of (startPage batch : ℕ) : ℕ := min 500 (startPage + batch - 1)

/-- The pages visited by `for page in range(start_page, end_page + 1)`. -/
def pages_between (startPage endPage : ℕ) : List ℕ :=
  if startPage ≤ endPage then List.range' startPage (endPage + 1 - startPage) else []

/-- Outcome of one `continue_bulk_popular` run. -/
structure ContinueResult where
  success : Bool
  pagesIngested : List ℕ
  indexPersisted : Bool
  cursorAfter : Option ℕ
  deriving DecidableEq

/-- `bulk_populate_popular(ct, start, end)` walks the page range adding eligible
items, then runs `self.embedding_service.save_index()` followed by
`self.embedding_service.optimize_index_if_large()`.  `EmbeddingService`
(embedding_service.py) defines no attribute named `optimize_index_if_large`,
so that call raises `AttributeError`; the enclosing `try` catches it and the
function returns `{"success": False, "error": ...}` — after the index was
already saved.  We record (success, pages walked, index persisted). -/
def bulk_populate_popular_run (startPage endPage : ℕ) : Bool × List ℕ × Bool :=
  (false, pages_between startPage endPage, true)

/-- `continue_bulk_popular(ct, batch_pages)`: read the cursor, derive the page
range, run `bulk_populate_popular`, and write the new last page back only
when the result reports success (recommendation_service.py:1236-1241). -/
def continue_bulk_popular (cursor : Option ℕ) (batchPages : ℕ) : ContinueResult :=
  let last := last_page_of cursor
  let s := start_page_of last
  let e := end_page_of s batchPages
  let r := bulk_populate_popular_run s e
  { success := r.1
    pagesIngested := r.2.1
    indexPersisted := r.2.2
    cursorAfter := if r.1 then some e else cursor }

/-- C1.  The claim: `populate_continue` reads the cursor (default 0), ingests
pages `[last+1, last+batch]`, persists the index, invokes `optimize_if_large()`,
writes the new last page back, and two consecutive runs ingest disjoint page
ranges.  On this code the claim fails: `optimize_index_if_large` does not exist
on `EmbeddingService`, the resulting `AttributeError` makes
`bulk_populate_popular` return `success=False` (after `save_index()`), and
`continue_bulk_popular` therefore never writes the cursor back.  Evaluating the
model at the failing input: two consecutive runs with `batch_pages = 25` from a
fresh cursor both ingest exactly pages 1..25 (overlapping, not disjoint), the
run reports failure, and the cursor is still unset afterwards. -/
theorem C1_populate_continue_code_bug :
    (continue_bulk_popular none 25).pagesIngested = List.range' 1 25 ∧
    (continue_bulk_popular (continue_bulk_popular none 25).cursorAfter 25).pagesIngested
        = List.range' 1 25 ∧
    (continue_bulk_popular none 25).success = false ∧
    (continue_bulk_popular none 25).cursorAfter = none ∧
    (continue_bulk_popular none 25).indexPersisted = true ∧
    (1 : ℕ) ∈ (continue_bulk_popular none 25).pagesIngested ∧
    (1 : ℕ) ∈ (continue_bulk_popular (continue_bulk_popular none 25).cursorAfter 25).pagesIngested := by
  decide

/-! ## User emotional profile updates
(emotion_analysis_service.py:477-543; `_update_profile_embedding` and
`update_user_emotion_profile_realtime`) -/

/-- The `UserEmotionalProfile` fields the realtime update touches. -/
structure UserEmotionalProfile where
  emotional_embedding : Option Vec
  total_watched_movies : ℕ
  profile_confidence : ℚ
  deriving DecidableEq

/-- `_update_profile_embedding` (emotion_analysis_service.py:529-543).
When a current embedding exists and the watched count is positive, the new
embedding is `(current * count + e * (rating/10)) / (count + 1)` — stored as
is, without dividing by its norm; otherwise the raw content embedding is
stored.  The watched count is incremented in both cases. -/
def update_profile_embedding (profile : UserEmotionalProfile)
    (content_embedding : Vec) (rating : ℚ) : UserEmotionalProfile :=
  let p :=
    match profile.emotional_embedding, profile.total_watched_movies with
    | some cur, n + 1 =>
        let weighted := vscale (rating / 10) content_embedding
        let newAvg := vdivs (vadd (vscale ((n + 1 : ℕ) : ℚ) cur) weighted) (((n + 1 : ℕ) : ℚ) + 1)
        { profile with emotional_embedding := some newAvg }
    | _, _ => { profile with emotional_embedding := some content_embedding }
  { p with total_watched_movies := profile.total_watched_movies + 1 }

/-- `update_user_emotion_profile_realtime` (emotion_analysis_service.py:477-503):
after `_update_profile_embedding` increments the count, line 490 sets
`profile_confidence = min(1, n/20)` and lines 493-494 overwrite it with
`n/10` whenever `n < 10`.  (The earlier write inside
`_update_emotional_characteristics_realtime` is dead: line 490 runs after it.) -/
def update_user_emotion_profile_realtime (profile : UserEmotionalProfile)
    (content_embedding : Vec) (rating : ℚ) : UserEmotionalProfile :=
  let p := update_profile_embedding profile content_embedding rating
  let n := p.total_watched_movies
  let c := min 1 ((n : ℚ) / 20)
  let c := if n < 10 then (n : ℚ) / 10 else c
  { p with profile_confidence := c }

theorem vdivs_vadd_getD (p e : Vec) (c d q : ℚ) (i : ℕ)
    (hip : i < p.length) (hie : i < e.length) :
    (vdivs (vadd (vscale c p) (vscale d e)) q).getD i 0
      = (c * p.getD i 0 + d * e.getD i 0) / q := by
  have hlen : i < (vadd (vscale c p) (vscale d e)).length := by
    simp [vadd, vscale, List.length_zipWith]; omega
  rw [vdivs, List.getD_eq_getElem?_getD, List.getElem?_map]
  rw [List.getElem?_eq_getElem hlen]
  simp only [Option.map_some', Option.getD_some]
  simp [vadd, vscale, List.getElem_zipWith, List.getD_eq_getElem?_getD,
    List.getElem?_eq_getElem, hip, hie]

/-- C2 counterexample.  The claim: for watched_count `n ≥ 1` the update stores
`normalize((p·n + e·(r/10)) / (n+1))`.  Concretely, from profile `p = [1,0]`,
`n = 1`, rating 10 on `e = [0,1]`, the code stores `[1/2, 1/2]` — but the
L2 normalization of the claimed weighted mean `[1/2, 1/2]` would have unit
squared norm, while the stored vector's squared norm is `1/2`: the stored
vector is not the normalization of the mean (nor of anything). -/
theorem C2_update_not_normalized_counterexample :
    (update_profile_embedding ⟨some [1, 0], 1, 1/20⟩ [0, 1] 10).emotional_embedding
        = some [1/2, 1/2] ∧
    (update_profile_embedding ⟨some [1, 0], 1, 1/20⟩ [0, 1] 10).total_watched_movies = 2 ∧
    ¬ IsNormalizeOf
        (vdivs (vadd (vscale ((1 : ℕ) : ℚ) [1, 0]) (vscale (10/10) [0, 1])) (((1 : ℕ) : ℚ) + 1))
        ((update_profile_embedding ⟨some [1, 0], 1, 1/20⟩ [0, 1] 10).emotional_embedding.getD []) := by
  have hstored :
      (update_profile_embedding ⟨some [1, 0], 1, 1/20⟩ [0, 1] 10).emotional_embedding
        = some [1/2, 1/2] := by decide
  refine ⟨hstored, by decide, ?_⟩
  rintro ⟨c, -, -, hsum⟩
  rw [hstored] at hsum
  simp only [Option.getD_some, vecR, List.map_cons, List.map_nil, List.sum_cons,
    List.sum_nil] at hsum
  norm_num at hsum

/-- C2 amended: for every profile with embedding `p` and watched count `n ≥ 1`,
and every rating `r` on an item embedding `e`, the realtime update stores the
weighted running mean `(p·n + e·(r/10)) / (n+1)` — with no normalization —
and sets the watched count to `n + 1`; elementwise, coordinate `i` of the new
embedding is `(n * p[i] + (r/10) * e[i]) / (n + 1)`. -/
theorem C2_update_profile_formula (p : Vec) (n : ℕ) (hn : 1 ≤ n) (e : Vec) (r conf : ℚ) :
    (update_profile_embedding ⟨some p, n, conf⟩ e r).emotional_embedding
        = some (vdivs (vadd (vscale ((n : ℕ) : ℚ) p) (vscale (r / 10) e)) (((n : ℕ) : ℚ) + 1)) ∧
    (update_profile_embedding ⟨some p, n, conf⟩ e r).total_watched_movies = n + 1 ∧
    ∀ i : ℕ, i < p.length → i < e.length →
      ((update_profile_embedding ⟨some p, n, conf⟩ e r).emotional_embedding.getD []).getD i 0
        = ((n : ℚ) * p.getD i 0 + (r / 10) * e.getD i 0) / ((n : ℚ) + 1) := by
  obtain ⟨m, rfl⟩ : ∃ m, n = m + 1 := ⟨n - 1, by omega⟩
  refine ⟨rfl, rfl, ?_⟩
  intro i hip hie
  simp only [update_profile_embedding, Option.getD_some]
  exact vdivs_vadd_getD p e _ _ _ i hip hie

/-- Witness for `C2_update_profile_formula` at `p = [1,0]`, `n = 1`, `e = [0,1]`,
`r = 8`. -/
theorem C2_update_profile_formula_witness :
    (update_profile_embedding ⟨some [1, 0], 1, 1/20⟩ [0, 1] 8).emotional_embedding
        = some (vdivs (vadd (vscale ((1 : ℕ) : ℚ) [1, 0]) (vscale ((8 : ℚ) / 10) [0, 1]))
            (((1 : ℕ) : ℚ) + 1)) ∧
    (update_profile_embedding ⟨some [1, 0], 1, 1/20⟩ [0, 1] 8).total_watched_movies = 2 := by
  have h := C2_update_profile_formula [1, 0] 1 (by decide) [0, 1] 8 (1/20)
  exact ⟨h.1, h.2.1⟩

/-- C3 counterexample.  The claim: confidence always equals
`min(1, watched_count/20)`, so the first rating gives 0.05.  On this code the
first realtime update stores watched_count 1 and confidence `1/10 = 0.1`
(lines 493-494 overwrite with `n/10` for `n < 10`), while
`min(1, 1/20) = 1/20 = 0.05`. -/
theorem C3_confidence_counterexample :
    (update_user_emotion_profile_realtime ⟨none, 0, 0⟩ [1, 0] 8).total_watched_movies = 1 ∧
    (update_user_emotion_profile_realtime ⟨none, 0, 0⟩ [1, 0] 8).profile_confidence = 1/10 ∧
    min 1 ((1 : ℚ) / 20) = 1/20 ∧
    (1 : ℚ) / 10 ≠ 1/20 := by
  decide

/-- C3 amended: after every realtime profile update the stored confidence is
`watched_count/10` when `watched_count < 10` and `min(1, watched_count/20)`
otherwise (watched_count being the already-incremented count); in particular
the first rating yields confidence 0.1, not 0.05. -/
theorem C3_confidence_formula (profile : UserEmotionalProfile) (e : Vec) (r : ℚ) :
    (update_user_emotion_profile_realtime profile e r).total_watched_movies
        = profile.total_watched_movies + 1 ∧
    (update_user_emotion_profile_realtime profile e r).profile_confidence
        = (if profile.total_watched_movies + 1 < 10
           then ((profile.total_watched_movies + 1 : ℕ) : ℚ) / 10
           else min 1 (((profile.total_watched_movies + 1 : ℕ) : ℚ) / 20)) := by
  have hcount : (update_profile_embedding profile e r).total_watched_movies
      = profile.total_watched_movies + 1 := by
    unfold update_profile_embedding
    cases profile.emotional_embedding <;> cases profile.total_watched_movies <;> rfl
  constructor
  · exact hcount
  · simp [update_user_emotion_profile_realtime, hcount]

/-! ## Stable descending sort

Python's `list.sort(key=..., reverse=True)` is a stable sort placing larger
keys first; ties keep their original relative order.  `sortDescBy` is the
insertion-sort formulation of the same (unique) stable descending ordering. -/

def insertDescBy {α β : Type} [LinearOrder β] (key : α → β) (x : α) : List α → List α
  | [] => [x]
  | y :: ys => if key y ≤ key x then x :: y :: ys else y :: insertDescBy key x ys

def sortDescBy {α β : Type} [LinearOrder β] (key : α → β) (l : List α) : List α :=
  l.foldr (insertDescBy key) []

theorem insertDescBy_map {α α' β : Type} [LinearOrder β] (key : α → β) (f : α' → α)
    (x : α') (l : List α') :
    insertDescBy key (f x) (l.map f) = (insertDescBy (fun a => key (f a)) x l).map f := by
  induction l with
  | nil => rfl
  | cons y ys ih =>
    simp only [List.map_cons, insertDescBy]
    split_ifs <;> simp [List.map_cons, ih]

theorem sortDescBy_map {α α' β : Type} [LinearOrder β] (key : α → β) (f : α' → α)
    (l : List α') :
    sortDescBy key (l.map f) = (sortDescBy (fun a => key (f a)) l).map f := by
  induction l with
  | nil => rfl
  | cons y ys ih => simp [sortDescBy, List.foldr] at ih ⊢; rw [ih, insertDescBy_map]

theorem insertDescBy_congr {α β : Type} [LinearOrder β] (key key' : α → β)
    (hk : ∀ a b : α, key a ≤ key b ↔ key' a ≤ key' b) (x : α) (l : List α) :
    insertDescBy key x l = insertDescBy key' x l := by
  induction l with
  | nil => rfl
  | cons y ys ih =>
    simp only [insertDescBy]
    rw [ih]
    rcases Decidable.em (key y ≤ key x) with h | h
    · rw [if_pos h, if_pos ((hk y x).mp h)]
    · rw [if_neg h, if_neg (fun h' => h ((hk y x).mpr h'))]

theorem sortDescBy_congr {α β : Type} [LinearOrder β] (key key' : α → β)
    (hk : ∀ a b : α, key a ≤ key b ↔ key' a ≤ key' b) (l : List α) :
    sortDescBy key l = sortDescBy key' l := by
  induction l with
  | nil => rfl
  | cons y ys ih =>
    simp only [sortDescBy, List.foldr] at ih ⊢
    rw [ih, insertDescBy_congr key key' hk]

theorem mem_insertDescBy_iff {α β : Type} [LinearOrder β] {key : α → β} {x b : α}
    {l : List α} : b ∈ insertDescBy key x l ↔ b = x ∨ b ∈ l := by
  induction l with
  | nil => simp [insertDescBy]
  | cons y ys ih =>
    simp only [insertDescBy]
    split_ifs
    · simp [List.mem_cons]
    · simp only [List.mem_cons, ih]
      tauto

theorem insertDescBy_sorted {α β : Type} [LinearOrder β] (key : α → β) (x : α)
    (l : List α) (h : l.Pairwise (fun a b => key b ≤ key a)) :
    (insertDescBy key x l).Pairwise (fun a b => key b ≤ key a) := by
  induction l with
  | nil => simp [insertDescBy]
  | cons y ys ih =>
    rcases List.pairwise_cons.mp h with ⟨hy, hys⟩
    simp only [insertDescBy]
    split_ifs with hle
    · refine List.pairwise_cons.mpr ⟨?_, h⟩
      intro b hb
      rcases List.mem_cons.mp hb with rfl | hb
      · exact hle
      · exact le_trans (hy b hb) hle
    · refine List.pairwise_cons.mpr ⟨?_, ih hys⟩
      intro b hb
      rcases mem_insertDescBy_iff.mp hb with rfl | hb
      · exact le_of_lt (lt_of_not_le hle)
      · exact hy b hb

theorem sortDescBy_sorted {α β : Type} [LinearOrder β] (key : α → β) (l : List α) :
    (sortDescBy key l).Pairwise (fun a b => key b ≤ key a) := by
  induction l with
  | nil => simp [sortDescBy]
  | cons y ys ih =>
    simp only [sortDescBy, List.foldr] at ih ⊢
    exact insertDescBy_sorted key y _ ih

theorem mem_sortDescBy_iff {α β : Type} [LinearOrder β] {key : α → β} {b : α}
    {l : List α} : b ∈ sortDescBy key l ↔ b ∈ l := by
  induction l with
  | nil => simp [sortDescBy]
  | cons y ys ih =>
    simp only [sortDescBy, List.foldr] at ih ⊢
    rw [mem_insertDescBy_iff, ih, List.mem_cons]

/-! ## Movie rooms (room_service.py, models/room.py)

`Room`, `RoomParticipant`, `RoomInteraction` and `RoomMatch` rows for one room,
in insertion order.  The `RoomMatch` table (models/room.py:92-100) declares no
uniqueness constraint on `(room_id, tmdb_id)`, so `matches` is a plain list. -/

inductive RoomStatus
  | waiting
  | voting
  | finished
  deriving DecidableEq

inductive RoomAction
  | like
  | dislike
  | superlike
  deriving DecidableEq

structure RoomInteractionRow where
  session_id : String
  tmdb_id : ℕ
  action : RoomAction
  deriving DecidableEq

structure RoomState where
  status : RoomStatus
  creator_session_id : String
  participants : List String
  interactions : List RoomInteractionRow
  matchRows : List ℕ
  deriving DecidableEq

/-- Sessions that recorded `like` or `superlike` on `tmdb`
(room_service.py:291-301). -/
def liked_session_ids (st : RoomState) (tmdb : ℕ) : Finset String :=
  ((st.interactions.filter (fun i =>
      i.tmdb_id == tmdb && (i.action == RoomAction.like || i.action == RoomAction.superlike))).map
    (fun i => i.session_id)).toFinset

/-- `_check_for_match` (room_service.py:290-319): a unanimous match creates a
`RoomMatch` only if none exists yet for `(room, tmdb)`. -/
def check_for_match (st : RoomState) (tmdb : ℕ) : Option ℕ × RoomState :=
  if ¬ (st.participants.toFinset ⊆ liked_session_ids st tmdb) then (none, st)
  else if tmdb ∈ st.matchRows then (some tmdb, st)
  else (some tmdb, { st with matchRows := st.matchRows ++ [tmdb] })

/-- The set of `tmdb_id`s a session has swiped (any action)
(room_service.py:330-339). -/
def swiped_ids (st : RoomState) (sid : String) : Finset ℕ :=
  ((st.interactions.filter (fun i => i.session_id == sid)).map (fun i => i.tmdb_id)).toFinset

/-- Union of the participants' swiped sets (room_service.py:341-343; interactions
from sessions that are no longer participants are excluded by the dict guard on
line 338, which this union over participants reproduces). -/
def all_swiped_union (st : RoomState) : Finset ℕ :=
  st.participants.foldr (fun sid acc => swiped_ids st sid ∪ acc) ∅

/-- Intersection of the participants' swiped sets, carved out of the union
(`S₁ ∩ ... ∩ Sₙ` restricted to the union — the union is contained in the true
intersection iff it is contained in this one). -/
def all_swiped_inter (st : RoomState) : Finset ℕ :=
  (all_swiped_union st).filter
    (fun t => st.participants.all (fun sid => decide (t ∈ swiped_ids st sid)))

/-- `_have_all_participants_finished_swiping` (room_service.py:321-351). -/
def have_all_participants_finished_swiping (st : RoomState) : Bool :=
  if st.status ≠ RoomStatus.voting then false
  else if st.participants = [] then false
  else if all_swiped_union st = ∅ then false
  else st.participants.all (fun sid => decide (all_swiped_union st ⊆ swiped_ids st sid))

/-- `record_swipe` (room_service.py:123-154): first write wins per
`(room, session, tmdb)`; on like/superlike run the match detector; return
`(match, all_done)` where `all_done` re-reads the room state after the write. -/
def record_swipe_write (st : RoomState) (sid : String) (tmdb : ℕ) (action : RoomAction) :
    Option ℕ × RoomState :=
  let st1 :=
    if st.interactions.any (fun i => i.session_id == sid && i.tmdb_id == tmdb)
    then st
    else { st with interactions := st.interactions ++ [⟨sid, tmdb, action⟩] }
  if action == RoomAction.like || action == RoomAction.superlike
  then check_for_match st1 tmdb
  else (none, st1)

def record_swipe (st : RoomState) (sid : String) (tmdb : ℕ) (action : RoomAction) :
    (Option ℕ × Bool) × RoomState :=
  (((record_swipe_write st sid tmdb action).1,
    have_all_participants_finished_swiping (record_swipe_write st sid tmdb action).2),
   (record_swipe_write st sid tmdb action).2)

/-- Score tally of `_calculate_top_matches` (room_service.py:379-382): a Python
dict keyed by tmdb_id in first-seen insertion order. -/
def tally_scores (l : List RoomInteractionRow) : List (ℕ × ℕ) :=
  l.foldl
    (fun acc i =>
      let w := if i.action == RoomAction.superlike then 3 else 1
      if acc.any (fun p => p.1 == i.tmdb_id)
      then acc.map (fun p => if p.1 == i.tmdb_id then (p.1, p.2 + w) else p)
      else acc ++ [(i.tmdb_id, w)])
    []

/-- `_calculate_top_matches` (room_service.py:362-398): tally positive
interactions, sort descending by score (`sorted` is stable), take the top 5 and
append them as new `RoomMatch` rows — without checking for existing matches. -/
def calculate_top_matches (st : RoomState) : List ℕ × RoomState :=
  let positives := st.interactions.filter
    (fun i => i.action == RoomAction.like || i.action == RoomAction.superlike)
  if positives = [] then ([], st)
  else
    let top := ((sortDescBy (fun p => p.2) (tally_scores positives)).take 5).map (fun p => p.1)
    (top, { st with matchRows := st.matchRows ++ top })

/-- `force_finish_room` (room_service.py:171-183): creator only, requires
`voting`; computes and persists the weighted top matches, then finishes the
room.  Domain exceptions are modelled as `none` with the state unchanged. -/
def force_finish_room (st : RoomState) (sid : String) : Option (List ℕ) × RoomState :=
  if sid ≠ st.creator_session_id then (none, st)
  else if st.status ≠ RoomStatus.voting then (none, st)
  else
    let r := calculate_top_matches st
    (some r.1, { r.2 with status := RoomStatus.finished })

theorem subset_inter_iff (s : RoomState) :
    all_swiped_union s ⊆ all_swiped_inter s ↔
      ∀ p ∈ s.participants, all_swiped_union s ⊆ swiped_ids s p := by
  constructor
  · intro h p hp t ht
    have ht' := h ht
    simp only [all_swiped_inter, Finset.mem_filter, List.all_eq_true,
      decide_eq_true_eq] at ht'
    exact ht'.2 p hp
  · intro h t ht
    simp only [all_swiped_inter, Finset.mem_filter, List.all_eq_true, decide_eq_true_eq]
    exact ⟨ht, fun p hp => h p hp ht⟩

theorem have_all_finished_iff (s : RoomState) :
    (have_all_participants_finished_swiping s = true) ↔
      (s.status = RoomStatus.voting ∧ all_swiped_union s ≠ ∅ ∧
       all_swiped_union s ⊆ all_swiped_inter s) := by
  unfold have_all_participants_finished_swiping
  rw [subset_inter_iff]
  split_ifs with h1 h2 h3
  · simp [h1]
  · have : all_swiped_union s = ∅ := by simp [all_swiped_union, h2]
    simp [this]
  · simp [h3]
  · push_neg at h1
    simp only [List.all_eq_true, decide_eq_true_eq]
    exact ⟨fun h => ⟨h1, h3, h⟩, fun h => h.2.2⟩

/-- C8.  The claim: at most one `RoomMatch` row ever exists per `(room, tmdb)`,
including a unanimous match during voting followed by a force-finish.  On this
code the claim fails: `_calculate_top_matches` appends `RoomMatch` rows for the
top-scored titles without checking for rows already created by
`_check_for_match`, and the `RoomMatch` table has no unique constraint.
Evaluating the code at the failing input: in a voting room with participants
A (creator) and B, both like title 7; the unanimous match stores one row, and
the creator's force-finish stores a second row for the same `(room, 7)`. -/
theorem C8_room_match_duplicated_code_bug :
    ((record_swipe
        ((record_swipe ⟨RoomStatus.voting, "A", ["A", "B"], [], []⟩ "A" 7 RoomAction.like).2)
        "B" 7 RoomAction.like).2).matchRows = [7] ∧
    ((force_finish_room
        ((record_swipe
          ((record_swipe ⟨RoomStatus.voting, "A", ["A", "B"], [], []⟩ "A" 7 RoomAction.like).2)
          "B" 7 RoomAction.like).2)
        "A").2).matchRows.count 7 = 2 := by
  decide

/-- C9.  `record_swipe` returns `all_done = true` iff (in the state after the
swipe is recorded) the room is in voting status and the union of the
participants' swiped sets is non-empty and contained in their intersection —
i.e. every participant has swiped every title any participant has swiped; and
`all_done` is `false` whenever no swipes have been recorded at all. -/
theorem C9_record_swipe_all_done (st : RoomState) (sid : String) (tmdb : ℕ)
    (action : RoomAction) :
    ((record_swipe st sid tmdb action).1.2 = true ↔
      ((record_swipe st sid tmdb action).2.status = RoomStatus.voting ∧
       all_swiped_union (record_swipe st sid tmdb action).2 ≠ ∅ ∧
       all_swiped_union (record_swipe st sid tmdb action).2
         ⊆ all_swiped_inter (record_swipe st sid tmdb action).2)) ∧
    (∀ s : RoomState, s.interactions = [] →
      have_all_participants_finished_swiping s = false) := by
  constructor
  · rw [show (record_swipe st sid tmdb action).1.2
        = have_all_participants_finished_swiping (record_swipe st sid tmdb action).2 from rfl]
    exact have_all_finished_iff _
  · intro s hs
    unfold have_all_participants_finished_swiping
    split_ifs with h1 h2 h3
    · rfl
    · rfl
    · rfl
    · exfalso
      apply h3
      have hsw : ∀ sid, swiped_ids s sid = ∅ := by
        intro sid; simp [swiped_ids, hs]
      unfold all_swiped_union
      generalize s.participants = l
      induction l with
      | nil => rfl
      | cons p ps ih => simp [List.foldr, hsw, ih]

/-- Witness for `C9_record_swipe_all_done`: in a one-participant voting room,
the participant's first swipe makes `all_done` true (the theorem's
characterization applied at a concrete input), and a room with no interactions
is not all-done. -/
theorem C9_record_swipe_all_done_witness :
    (record_swipe ⟨RoomStatus.voting, "A", ["A"], [], []⟩ "A" 5 RoomAction.like).1.2 = true ∧
    have_all_participants_finished_swiping ⟨RoomStatus.voting, "A", ["A"], [], []⟩ = false := by
  constructor
  · exact ((C9_record_swipe_all_done ⟨RoomStatus.voting, "A", ["A"], [], []⟩ "A" 5
      RoomAction.like).1).mpr (by decide)
  · exact (C9_record_swipe_all_done ⟨RoomStatus.voting, "A", ["A"], [], []⟩ "A" 5
      RoomAction.like).2 ⟨RoomStatus.voting, "A", ["A"], [], []⟩ rfl

/-! ## Embedding index (embedding_service.py)

`IndexState.vectors` models the rows of the FAISS `IndexFlatIP` (added via
`index.add`), `IndexState.content_data` the parallel `self.content_data`
payload list.  The two lists can diverge: `get_content_embedding` appends a
payload without adding a vector.

`generate_content_text` flattens the TMDB payload (title, overview, genres,
year, tagline, ...) to one string; we carry that rendering as a precomputed
`text` field, since no claim depends on its internal assembly. -/

structure TmdbDetails where
  title : String
  overview : String
  vote_average : ℚ
  text : String
  deriving DecidableEq

structure Item where
  tmdb_id : ℕ
  content_type : String
  vote_average : ℚ
  text : String
  embedding_vector : Option Vec
  deriving DecidableEq

instance : Inhabited Item := ⟨⟨0, "", 0, "", none⟩⟩

structure IndexState where
  vectors : List Vec
  content_data : List Item
  deriving DecidableEq

/-- Exact square root of a rational, when one exists. -/
def ratSqrt (q : ℚ) : Option ℚ :=
  if 0 ≤ q.num ∧ Nat.sqrt q.num.toNat * Nat.sqrt q.num.toNat = q.num.toNat
      ∧ Nat.sqrt q.den * Nat.sqrt q.den = q.den
  then some (mkRat (Nat.sqrt q.num.toNat) (Nat.sqrt q.den))
  else none

/-- `v / np.linalg.norm(v)`.  The code divides by the float norm; the model
divides by the exact rational square root of `normSq v`.  Every encoder output
fed to this function in the concrete runs below has a rational norm, where this
is exact (vectors of irrational norm are returned unchanged — no theorem in
this file relies on that case). -/
def qnormalize (v : Vec) : Vec :=
  match ratSqrt (normSq v) with
  | some n => vdivs v n
  | none => v

/-- `add_content_with_details` (embedding_service.py:133-172): reject content
with `vote_average < 6.0` (returning `False` before touching any state),
reject empty text, otherwise embed, L2-normalize, add the vector to the FAISS
index and append the payload (carrying the normalized vector) to
`content_data`. -/
def add_content_with_details (encode : String → Vec) (st : IndexState) (item : Item) :
    Bool × IndexState :=
  if item.vote_average < 6 then (false, st)
  else if item.text = "" then (false, st)
  else
    let e := qnormalize (encode item.text)
    (true,
      { vectors := st.vectors ++ [e],
        content_data := st.content_data ++ [{ item with embedding_vector := some e }] })

/-- `get_content_embedding` (embedding_service.py:466-527): linear scan of
`content_data`; on a miss, fetch TMDB details, build the text, embed — and
cache the payload carrying the RAW encoder output: unlike
`add_content_with_details`, this path never divides by the norm
(embedding_service.py:516-520), and it appends no vector to the FAISS index
and applies no `vote_average` filter. -/
def get_content_embedding (fetch : String → ℕ → Option TmdbDetails)
    (encode : String → Vec) (st : IndexState) (tmdb : ℕ) (ct : String) :
    Option Vec × IndexState :=
  match st.content_data.find? (fun it => it.tmdb_id == tmdb && it.content_type == ct) with
  | some it => (it.embedding_vector, st)
  | none =>
      if ct == "movie" || ct == "tv" then
        match fetch ct tmdb with
        | none => (none, st)
        | some d =>
            if d.text = "" then (none, st)
            else
              let e := encode d.text
              (some e,
                { st with content_data := st.content_data ++
                    [{ tmdb_id := tmdb, content_type := ct, vote_average := d.vote_average,
                       text := d.text, embedding_vector := some e }] })
      else (none, st)

/-- FAISS `IndexFlatIP.search(q̂, k)`: the `k` largest inner products in
decreasing order (deterministic; ties modelled in index order via the stable
sort).  We record the numerator `dot q v`; the float the code sees is this
divided by the positive constant `‖q‖₂`, which changes no comparison.
(When `ntotal < k`, real FAISS pads with index −1 / score −inf entries, which
Python's negative indexing then maps to the LAST payload; the model returns
only the `ntotal` real entries — the padding can only add further payloads to
a result list and no theorem below depends on its absence.) -/
def faiss_search (vectors : List Vec) (q : Vec) (k : ℕ) : List (ℕ × ℚ) :=
  (sortDescBy (fun p => p.2) (vectors.enum.map (fun p => (p.1, dot q p.2)))).take k

/-- One entry of a `search_similar_content` result: the payload dict with
`similarity_score` and `rank` attached (embedding_service.py:280-281). -/
structure Hit where
  item : Item
  score : ℚ
  rank : ℕ
  deriving DecidableEq

instance : Inhabited Hit := ⟨⟨default, 0, 0⟩⟩

/-- Result-collection loop of `search_similar_content`
(embedding_service.py:263-286): guard `idx < len(content_data)`, filter by
content type, assign `rank = len(results) + 1`, stop once `top_k` results are
collected. -/
def search_loop (content_data : List Item) (ct : Option String) (topK : ℕ) :
    List (ℕ × ℚ) → ℕ → List Hit
  | [], _ => []
  | (idx, score) :: rest, count =>
      if h : idx < content_data.length then
        let c := content_data.get ⟨idx, h⟩
        if (match ct with | some t => c.content_type != t | none => false)
        then search_loop content_data ct topK rest count
        else
          if topK ≤ count + 1 then [⟨c, score, count + 1⟩]
          else ⟨c, score, count + 1⟩ :: search_loop content_data ct topK rest (count + 1)
      else search_loop content_data ct topK rest count

/-- `search_similar_content` (embedding_service.py:236-293) with an explicit
query vector: empty-index guard, L2-normalize the query (represented by the
score convention in the module comment), FAISS search over-fetching `2k`,
then the collection loop. -/
def search_similar_content (st : IndexState) (q : Vec) (topK : ℕ) (ct : Option String) :
    List Hit :=
  if st.vectors.length = 0 then []
  else search_loop st.content_data ct topK (faiss_search st.vectors q (topK * 2)) 0

theorem dot_vscale (c : ℚ) (q v : Vec) : dot (vscale c q) v = c * dot q v := by
  unfold dot vscale
  induction q generalizing v with
  | nil => simp
  | cons x xs ih =>
    cases v with
    | nil => simp
    | cons y ys => simp [List.zipWith, ih, mul_add, mul_assoc]

theorem dot_comm (a b : Vec) : dot a b = dot b a := by
  unfold dot
  induction a generalizing b with
  | nil => cases b <;> simp
  | cons x xs ih =>
    cases b with
    | nil => simp
    | cons y ys => simp [List.zipWith, ih, mul_comm]

theorem normSq_vscale (c : ℚ) (q : Vec) : normSq (vscale c q) = c ^ 2 * normSq q := by
  unfold normSq
  rw [dot_vscale, dot_comm, dot_vscale, dot_comm]
  ring

theorem faiss_search_vscale (vectors : List Vec) (q : Vec) (c : ℚ) (hc : 0 < c) (k : ℕ) :
    faiss_search vectors (vscale c q) k
      = (faiss_search vectors q k).map (fun p => (p.1, c * p.2)) := by
  unfold faiss_search
  rw [List.map_take]
  congr 1
  have h1 : vectors.enum.map (fun p => (p.1, dot (vscale c q) p.2))
      = (vectors.enum.map (fun p => (p.1, dot q p.2))).map
          (fun p : ℕ × ℚ => (p.1, c * p.2)) := by
    rw [List.map_map]
    exact List.map_congr_left (fun p _ => by simp [dot_vscale])
  rw [h1, sortDescBy_map]
  congr 1
  apply sortDescBy_congr
  intro a b
  exact mul_le_mul_left hc

theorem search_loop_map_score (content_data : List Item) (ct : Option String)
    (topK : ℕ) (c : ℚ) (l : List (ℕ × ℚ)) (count : ℕ) :
    search_loop content_data ct topK (l.map (fun p => (p.1, c * p.2))) count
      = (search_loop content_data ct topK l count).map
          (fun h : Hit => ⟨h.item, c * h.score, h.rank⟩) := by
  induction l generalizing count with
  | nil => simp [search_loop]
  | cons p rest ih =>
    obtain ⟨idx, score⟩ := p
    simp only [List.map_cons, search_loop]
    split_ifs with h1 h2 h3 <;> simp [ih]

theorem search_vscale (st : IndexState) (q : Vec) (c : ℚ) (hc : 0 < c) (k : ℕ)
    (ct : Option String) :
    search_similar_content st (vscale c q) k ct
      = (search_similar_content st q k ct).map
          (fun h : Hit => ⟨h.item, c * h.score, h.rank⟩) := by
  unfold search_similar_content
  split_ifs with h
  · simp
  · rw [faiss_search_vscale _ _ _ hc, search_loop_map_score]

/-- C4.  The claim: every stored embedding vector — index payload vectors,
lazily embedded items included, and user-profile embeddings — has L2 norm
within 1e-6 of 1.  Evaluating the code at the failing input: a by-id lookup
miss on (tmdb 42, "movie") whose generated text encodes to `[6/5, 8/5]` (norm
2) caches exactly that raw vector in the payload list; its squared norm is 4,
far outside `((1-1e-6)², (1+1e-6)²)`, so its norm is not within 1e-6 of 1.
(`add_content_with_details` does normalize, embedding_service.py:152; the lazy
path, embedding_service.py:516-520, does not — contradicting the code's own
"already normalized embeddings" reading of scores at line 276-278 and the
spec's §8 invariant.) -/
theorem C4_lazy_embedding_not_normalized_code_bug :
    ((get_content_embedding (fun _ _ => some ⟨"Low", "ov", 9/2, "t"⟩) (fun _ => [6/5, 8/5])
        ⟨[], []⟩ 42 "movie").1 = some [6/5, 8/5]) ∧
    ((get_content_embedding (fun _ _ => some ⟨"Low", "ov", 9/2, "t"⟩) (fun _ => [6/5, 8/5])
        ⟨[], []⟩ 42 "movie").2.content_data.map
          (fun it => it.embedding_vector) = [some [6/5, 8/5]]) ∧
    normSq [6/5, 8/5] = 4 ∧
    ¬ ((1 - 1/1000000) * (1 - 1/1000000) < normSq [6/5, 8/5] ∧
       normSq [6/5, 8/5] < (1 + 1/1000000) * (1 + 1/1000000)) := by
  decide

/-- C10.  The similarity search L2-normalizes the query internally
(embedding_service.py:257), so for every query `q` with positive norm, every
`c > 0`, every `k` and content-type filter, searching with `c·q` returns the
same payloads with the same ranks, and the same real-valued scores
(`dot (c·q) v / ‖c·q‖₂ = dot q v / ‖q‖₂`); callers may pass unnormalized
combined embeddings without changing the results. -/
theorem C10_search_scale_invariant (st : IndexState) (q : Vec) (c : ℚ) (hc : 0 < c)
    (hq : 0 < normSq q) (k : ℕ) (ct : Option String) :
    ((search_similar_content st (vscale c q) k ct).map Hit.item
        = (search_similar_content st q k ct).map Hit.item) ∧
    ((search_similar_content st (vscale c q) k ct).map Hit.rank
        = (search_similar_content st q k ct).map Hit.rank) ∧
    ∀ i : ℕ,
      (((search_similar_content st (vscale c q) k ct).getD i default).score : ℝ)
          / Real.sqrt ((normSq (vscale c q) : ℚ) : ℝ)
        = (((search_similar_content st q k ct).getD i default).score : ℝ)
          / Real.sqrt ((normSq q : ℚ) : ℝ) := by
  have hs := search_vscale st q c hc k ct
  refine ⟨by rw [hs]; simp [List.map_map], by rw [hs]; simp [List.map_map], ?_⟩
  intro i
  have hcR : (0 : ℝ) < (c : ℝ) := by exact_mod_cast hc
  have hnormsq : ((normSq (vscale c q) : ℚ) : ℝ) = (c : ℝ) ^ 2 * ((normSq q : ℚ) : ℝ) := by
    rw [normSq_vscale]; push_cast; ring
  have hsqrt : Real.sqrt ((normSq (vscale c q) : ℚ) : ℝ)
      = (c : ℝ) * Real.sqrt ((normSq q : ℚ) : ℝ) := by
    rw [hnormsq, Real.sqrt_mul (by positivity), Real.sqrt_sq hcR.le]
  rcases Nat.lt_or_ge i (search_similar_content st q k ct).length with hi | hi
  · have hscore : ((search_similar_content st (vscale c q) k ct).getD i default).score
        = c * ((search_similar_content st q k ct).getD i default).score := by
      rw [hs]
      rw [List.getD_eq_getElem?_getD, List.getD_eq_getElem?_getD, List.getElem?_map]
      rw [List.getElem?_eq_getElem hi]
      simp
    rw [hscore, hsqrt]
    push_cast
    field_simp
    ring
  · have hlen : (search_similar_content st (vscale c q) k ct).length
        = (search_similar_content st q k ct).length := by rw [hs]; simp
    rw [List.getD_eq_getElem?_getD, List.getD_eq_getElem?_getD,
      List.getElem?_eq_none (by omega), List.getElem?_eq_none (by omega)]
    simp only [Option.getD_none]
    norm_num [show (default : Hit).score = 0 from rfl]

/-- Witness for `C10_search_scale_invariant`: a two-item index, query `[1,0]`
rescaled by 2. -/
theorem C10_search_scale_invariant_witness :
    (search_similar_content
        ⟨[[1, 0], [0, 1]],
         [⟨1, "movie", 7, "a", some [1, 0]⟩, ⟨2, "movie", 7, "b", some [0, 1]⟩]⟩
        (vscale 2 [1, 0]) 2 none).map Hit.item
      = (search_similar_content
        ⟨[[1, 0], [0, 1]],
         [⟨1, "movie", 7, "a", some [1, 0]⟩, ⟨2, "movie", 7, "b", some [0, 1]⟩]⟩
        [1, 0] 2 none).map Hit.item :=
  (C10_search_scale_invariant
    ⟨[[1, 0], [0, 1]],
     [⟨1, "movie", 7, "a", some [1, 0]⟩, ⟨2, "movie", 7, "b", some [0, 1]⟩]⟩
    [1, 0] 2 (by decide) (by decide) 2 none).1

/-! ## Room deck (room_service.py:254-288) -/

/-- The fixed "joker" query of `_fetch_recommendations_async`. -/
def joker_query : String := "popular award winning masterpiece highly rated best"

/-- First-seen merge on `rec["id"]` (`all_recommendations` dict,
room_service.py:278-282); payload ids and `tmdb_id`s coincide in the model. -/
def dedup_by_id : List Item → List ℕ → List Item
  | [], _ => []
  | it :: rest, seen =>
      if it.tmdb_id ∈ seen then dedup_by_id rest seen
      else it :: dedup_by_id rest (it.tmdb_id :: seen)

/-- `_sanitize_recommendations` (room_service.py:353-360): strip the
`embedding_vector` key. -/
def sanitize_recommendations (items : List Item) : List Item :=
  items.map (fun it => { it with embedding_vector := none })

/-- `_fetch_recommendations_async` (room_service.py:254-288): one
`search_similar_content` per mood (k=10) plus the joker query (k=5), merge by
first-seen id, shuffle (`σ`), truncate to 20, sanitize.  No `vote_average`
filter appears anywhere on this path. -/
def fetch_room_recommendations (σ : List Item → List Item) (st : IndexState)
    (encode : String → Vec) (moods : List String) (ctFilter : Option String) :
    List Item :=
  if moods = [] then []
  else
    let searches :=
      (moods.map (fun m => search_similar_content st (encode m) 10 ctFilter))
        ++ [search_similar_content st (encode joker_query) 5 ctFilter]
    let merged := dedup_by_id (searches.flatten.map Hit.item) []
    sanitize_recommendations ((σ merged).take 20)

/-- Concrete encoder for the C5 run: the low item's text embeds to `[1,0]`,
the high item's text and all queries embed to `[0,1]`. -/
def c5_encode : String → Vec :=
  fun s => if s = "Ltext" then [1, 0] else [0, 1]

/-- Concrete TMDB details for the C5 run: tmdb 99 is a low-rated title. -/
def c5_fetch : String → ℕ → Option TmdbDetails :=
  fun _ id => if id = 99 then some ⟨"LowRated", "ov", 9/2, "Ltext"⟩ else none

/-- C5.  The claim: `add(item)` returns false for `vote_average < 6.0` and
leaves the index unchanged, and no item with `vote_average < 6.0` is ever
ingested or surfaced in any served output (recommendation pages or room
decks).  The first half holds, but the second fails.  Failing run: (1) a
profile update triggers a lazy `get_content_embedding` miss on low-rated
tmdb 99 (vote 4.5) — the payload is appended with NO vote filter and NO index
vector, so `content_data` is now longer than the FAISS index; (2) a normal
`add_content_with_details` of high-rated tmdb 7 puts its vector at FAISS
position 0 — which now corresponds to payload 0, the low-rated item;
(3) a room deck search returns position 0 and serves the vote-4.5 title (the
room path has no vote_average filter).  Also checked: the direct `add` of the
low-rated item itself returns `False` and leaves the state unchanged. -/
theorem C5_low_rated_item_served_code_bug :
    (add_content_with_details c5_encode
        (get_content_embedding c5_fetch c5_encode ⟨[], []⟩ 99 "movie").2
        ⟨99, "movie", 9/2, "Ltext", none⟩
      = (false, (get_content_embedding c5_fetch c5_encode ⟨[], []⟩ 99 "movie").2)) ∧
    ((fetch_room_recommendations id
        (add_content_with_details c5_encode
          (get_content_embedding c5_fetch c5_encode ⟨[], []⟩ 99 "movie").2
          ⟨7, "movie", 15/2, "Htext", none⟩).2
        c5_encode ["m"] (some "movie")).map (fun it => (it.tmdb_id, it.vote_average))
      = [(99, 9/2)]) ∧
    (9 : ℚ)/2 < 6 := by
  decide

/-! ## Recommendation pipeline (recommendation_service.py)

The Redis envelope caches are elided (every run is a cache miss — claims are
about the computed envelopes), and the `RecommendationLog` append inside the
enrichment loop is dropped (no claim reads it). -/

def PAGE_SIZE : ℕ := 9
def MAX_PAGES : ℕ := 5
def MAX_RECOMMENDATIONS : ℕ := PAGE_SIZE * MAX_PAGES
def EMBEDDING_TOP_K : ℕ := 200

/-- `_get_emotion_embedding` (recommendation_service.py:61-72): encode the
text, `None` when the encoder returns an empty array, else divide by the
positive norm.  Under the score convention (module comment) the division is
absorbed by `search_similar_content`'s own normalization, so the model keeps
the raw vector. -/
def get_emotion_embedding (encode : String → Vec) (text : String) : Option Vec :=
  if encode text = [] then none else some (encode text)

/-- Band splitting of `_shuffle_within_score_bands`
(recommendation_service.py:95-107): group consecutive items whose score
differs from the running band anchor by ≤ 0.02; each new band resets the
anchor to its first score. -/
def split_bands_go (anchor : ℚ) (current : List Hit) : List Hit → List (List Hit)
  | [] => [current]
  | h :: t =>
      if |h.score - anchor| ≤ 1/50 then split_bands_go anchor (current ++ [h]) t
      else current :: split_bands_go h.score [h] t

def split_bands : List Hit → List (List Hit)
  | [] => []
  | h :: t => split_bands_go h.score [h] t

/-- `_shuffle_within_score_bands` (recommendation_service.py:90-112): shuffle
each band independently (`σ` is one outcome of `random.shuffle`) and
concatenate the bands in order. -/
def shuffle_within_score_bands (σ : List Hit → List Hit) (results : List Hit) : List Hit :=
  ((split_bands results).map σ).flatten

/-- Candidate assembly (recommendation_service.py:237-246 and 471-481): skip
missing/duplicate ids and ids in the exclusion set, keep
`(tmdb_id, similarity_score)` pairs in order. -/
def collect_candidates (excluded : List ℕ) : List Hit → List ℕ → List (ℕ × ℚ)
  | [], _ => []
  | h :: t, seen =>
      if h.item.tmdb_id ∈ seen ∨ h.item.tmdb_id ∈ excluded then
        collect_candidates excluded t seen
      else (h.item.tmdb_id, h.score) :: collect_candidates excluded t (h.item.tmdb_id :: seen)

/-- `CleanRec` (recommendation_service.py:123-135); the purely decorative
`backdrop_path`, `poster_path`, `release_date` strings are omitted. -/
structure CleanRec where
  tmdb_id : ℕ
  content_type : String
  title : String
  overview : String
  vote_average : ℚ
  similarity_score : ℤ
  rank : ℕ
  deriving DecidableEq

/-- `_build_clean_rec`: `similarity_score = round(score * 100)` (Python round:
ties to even), `rank = current_len + 1`. -/
def build_clean_rec (tmdb : ℕ) (ct : String) (d : TmdbDetails) (score : ℚ)
    (currentLen : ℕ) : CleanRec :=
  { tmdb_id := tmdb, content_type := ct, title := d.title, overview := d.overview,
    vote_average := d.vote_average, similarity_score := pyRound (score * 100),
    rank := currentLen + 1 }

/-- Per-candidate filter of the enrichment loop
(recommendation_service.py:147-151): details must exist and the fresh
`vote_average` must not be below `MIN_VOTE_AVERAGE = 6.0`. -/
def passes_details (fetch : String → ℕ → Option TmdbDetails) (ct : String) (tmdb : ℕ) :
    Bool :=
  match fetch ct tmdb with
  | none => false
  | some d => ! decide (d.vote_average < 6)

/-- In-order construction of the page (recommendation_service.py:157-175):
every surviving candidate is appended with `rank = len(clean) + 1`. -/
def build_ranked (fetch : String → ℕ → Option TmdbDetails) (ct : String) :
    List (ℕ × ℚ) → ℕ → List CleanRec
  | [], _ => []
  | c :: t, len =>
      match fetch ct c.1 with
      | some d => build_clean_rec c.1 ct d c.2 len :: build_ranked fetch ct t (len + 1)
      | none => build_ranked fetch ct t len

/-- `_stable_page_enrich_single` (recommendation_service.py:137-178): clamp the
page into `[1, MAX_PAGES]`, scan the candidates from the page offset in their
order, drop those failing `passes_details`, and stop once the page holds
`PAGE_SIZE` items.  The `DETAILS_FETCH_CHUNK`-sized concurrent batches re-sort
each chunk's results by candidate index (line 157) before appending, so the
chunked loop appends exactly the items of this sequential scan. -/
def stable_page_enrich (fetch : String → ℕ → Option TmdbDetails) (ct : String)
    (cands : List (ℕ × ℚ)) (page : ℕ) : List CleanRec :=
  let pageC := min (max page 1) MAX_PAGES
  let kept := ((cands.drop ((pageC - 1) * PAGE_SIZE)).filter
      (fun c => passes_details fetch ct c.1)).take PAGE_SIZE
  build_ranked fetch ct kept 0

/-- The envelope's `data` payload (`weights`/confidence extras of the hybrid
variant omitted; `recommendation_type` is folded into `method`). -/
structure Envelope where
  recommendations : List CleanRec
  total : ℕ
  page : ℕ
  page_size : ℕ
  total_pages : ℕ
  method : String
  deriving DecidableEq

/-- `_search_by_emotion_or_text` (recommendation_service.py:74-88): search with
the embedding when present, else let `search_similar_content` re-encode the
text — which then yields an empty result for an empty encoding (the zero-size
reshape raises and the `except` returns `[]`, embedding_service.py:291-293) —
then apply the score-band shuffle. -/
def search_by_emotion_or_text (σ : List Hit → List Hit) (st : IndexState)
    (encode : String → Vec) (ct : String) (text : String) : List Hit :=
  match get_emotion_embedding encode text with
  | some q => shuffle_within_score_bands σ (search_similar_content st q EMBEDDING_TOP_K (some ct))
  | none => []

/-- `get_emotion_based_recommendations` (recommendation_service.py:213-282) for
`content_type ≠ "all"`: search, band-shuffle, drop rated/duplicate ids, cap at
`MAX_RECOMMENDATIONS`, sort by score descending (stable), clamp the page,
enrich, and wrap the envelope.  `watched` is the user's rated `tmdb_id` set. -/
def get_emotion_based_recommendations (σ : List Hit → List Hit) (st : IndexState)
    (fetch : String → ℕ → Option TmdbDetails) (encode : String → Vec)
    (watched : List ℕ) (text ct : String) (page : ℕ) : Envelope :=
  let recs := search_by_emotion_or_text σ st encode ct text
  let cands := sortDescBy (fun c => c.2)
      ((collect_candidates watched recs []).take MAX_RECOMMENDATIONS)
  let pageC := min (max page 1) MAX_PAGES
  { recommendations := stable_page_enrich fetch ct cands pageC
    total := cands.length
    page := pageC
    page_size := PAGE_SIZE
    total_pages := min ((cands.length + PAGE_SIZE - 1) / PAGE_SIZE) MAX_PAGES
    method := "current_emotion" }

/-- `get_hybrid_recommendations` (recommendation_service.py:403-522) for
`content_type ≠ "all"`.  `analyze_user_emotion` hands back the RAW encoding of
the mood text (emotion_analysis_service.py:25,34); the cached profile
embedding `u` is `[]` when the user has no stored profile (Python falsiness of
the empty list).  With no profile the code falls back to
`get_emotion_based_recommendations` with `page=1` hardcoded
(recommendation_service.py:428-435); with a profile and a non-empty encoding
it searches with `0.7·e + 0.3·u` (normalized inside the search) and excludes
`watched ∪ exclude`. -/
def get_hybrid_recommendations (σ : List Hit → List Hit) (st : IndexState)
    (fetch : String → ℕ → Option TmdbDetails) (encode : String → Vec)
    (watched exclude : List ℕ) (u : Vec) (text ct : String) (page : ℕ) : Envelope :=
  if u = [] then get_emotion_based_recommendations σ st fetch encode watched text ct 1
  else
    let e := encode text
    let recs :=
      if e ≠ [] then
        shuffle_within_score_bands σ
          (search_similar_content st (vadd (vscale (7/10) e) (vscale (3/10) u))
            EMBEDDING_TOP_K (some ct))
      else search_by_emotion_or_text σ st encode ct text
    let cands := sortDescBy (fun c => c.2)
        ((collect_candidates (watched ++ exclude) recs []).take MAX_RECOMMENDATIONS)
    let pageC := min (max page 1) MAX_PAGES
    { recommendations := stable_page_enrich fetch ct cands pageC
      total := cands.length
      page := pageC
      page_size := PAGE_SIZE
      total_pages := min ((cands.length + PAGE_SIZE - 1) / PAGE_SIZE) MAX_PAGES
      method := "hybrid" }

/-- Ten-item index for the C6 counterexample: scores against the query `[1,0]`
are 1.00, 0.97, ..., 0.73 — all distinct with gaps above the 0.02 band size. -/
def c6_vectors : List Vec :=
  [[100/100, 0], [97/100, 0], [94/100, 0], [91/100, 0], [88/100, 0],
   [85/100, 0], [82/100, 0], [79/100, 0], [76/100, 0], [73/100, 0]]

def c6_items : List Item :=
  (List.range 10).map (fun i =>
    ⟨i + 1, "movie", 7, "x", (c6_vectors.drop i).head?⟩)

def c6_state : IndexState := ⟨c6_vectors, c6_items⟩

def c6_fetch : String → ℕ → Option TmdbDetails := fun _ _ => some ⟨"T", "o", 7, "x"⟩

def c6_encode : String → Vec := fun _ => [1, 0]

/-- C6 counterexample.  The claim: with no profile embedding,
`hybrid(user, t, ct, page)` returns exactly what
`current_emotion(user, t, ct, page)` returns.  The fallback call hardcodes
`page=1`, so for `page = 2` over a ten-candidate index the hybrid answer is
page 1 (ids 1..9) while `current_emotion` at page 2 serves id 10. -/
theorem C6_hybrid_fallback_page_counterexample :
    ((get_hybrid_recommendations id c6_state c6_fetch c6_encode [] [] [] "t" "movie" 2).recommendations.map
        (fun r => r.tmdb_id)) = [1, 2, 3, 4, 5, 6, 7, 8, 9] ∧
    ((get_emotion_based_recommendations id c6_state c6_fetch c6_encode [] "t" "movie" 2).recommendations.map
        (fun r => r.tmdb_id)) = [10] ∧
    ([1, 2, 3, 4, 5, 6, 7, 8, 9] : List ℕ) ≠ [10] := by
  decide

/-- C6 amended.  With a stored profile embedding `u` and mood text `t`, the
hybrid pipeline builds its candidates from the index search with the combined
query `0.7·encode(t) + 0.3·u` — and since the search normalizes its query,
any positive rescaling (in particular the normalization `q/‖q‖` itself) yields
the same payloads.  Without a profile embedding, `hybrid(user, t, ct, page)`
returns exactly what `current_emotion(user, t, ct, 1)` returns: the fallback
always requests page 1, whatever page was asked for. -/
theorem C6_hybrid_query_and_fallback (σ : List Hit → List Hit) (st : IndexState)
    (fetch : String → ℕ → Option TmdbDetails) (encode : String → Vec)
    (watched exclude : List ℕ) (u : Vec) (text ct : String) (page : ℕ)
    (hu : u ≠ []) (he : encode text ≠ []) (c : ℚ) (hc : 0 < c) :
    (get_hybrid_recommendations σ st fetch encode watched exclude [] text ct page
        = get_emotion_based_recommendations σ st fetch encode watched text ct 1) ∧
    ((search_similar_content st
          (vscale c (vadd (vscale (7/10) (encode text)) (vscale (3/10) u)))
          EMBEDDING_TOP_K (some ct)).map Hit.item
        = (search_similar_content st (vadd (vscale (7/10) (encode text)) (vscale (3/10) u))
          EMBEDDING_TOP_K (some ct)).map Hit.item) ∧
    ((get_hybrid_recommendations σ st fetch encode watched exclude u text ct page).recommendations
        = stable_page_enrich fetch ct
            (sortDescBy (fun c => c.2)
              ((collect_candidates (watched ++ exclude)
                (shuffle_within_score_bands σ
                  (search_similar_content st
                    (vadd (vscale (7/10) (encode text)) (vscale (3/10) u))
                    EMBEDDING_TOP_K (some ct))) []).take MAX_RECOMMENDATIONS))
            (min (max page 1) MAX_PAGES)) := by
  refine ⟨by simp [get_hybrid_recommendations], ?_, ?_⟩
  · rw [search_vscale st _ c hc]
    simp [List.map_map]
  · simp only [get_hybrid_recommendations, if_neg hu, if_neg (by simpa using he)]
    simp [he]

/-- Witness for `C6_hybrid_query_and_fallback` on the concrete C6 index with
profile `u = [0,1]` and `c = 2`. -/
theorem C6_hybrid_query_and_fallback_witness :
    get_hybrid_recommendations id c6_state c6_fetch c6_encode [] [] [] "t" "movie" 2
      = get_emotion_based_recommendations id c6_state c6_fetch c6_encode [] "t" "movie" 1 :=
  (C6_hybrid_query_and_fallback id c6_state c6_fetch c6_encode [] [] [0, 1] "t" "movie" 2
    (by decide) (by decide) 2 (by decide)).1

/-! ## C7: similarity scores of a served page -/

theorem mem_split_bands_go (l : List Hit) :
    ∀ (anchor : ℚ) (cur : List Hit) (x : Hit),
      x ∈ (split_bands_go anchor cur l).flatten ↔ x ∈ cur ∨ x ∈ l := by
  induction l with
  | nil => intro anchor cur x; simp [split_bands_go]
  | cons h t ih =>
    intro anchor cur x
    simp only [split_bands_go]
    split_ifs
    · rw [ih]
      simp [List.mem_append, or_assoc]
    · simp only [List.flatten_cons, List.mem_append, ih]
      simp [List.mem_cons]

theorem mem_split_bands (l : List Hit) (x : Hit) :
    x ∈ (split_bands l).flatten ↔ x ∈ l := by
  cases l with
  | nil => simp [split_bands]
  | cons h t =>
    rw [split_bands, mem_split_bands_go]
    simp [List.mem_cons]

theorem mem_shuffle_within_score_bands (σ : List Hit → List Hit)
    (hσ : ∀ b : List Hit, (σ b).Perm b) (l : List Hit) (x : Hit)
    (hx : x ∈ shuffle_within_score_bands σ l) : x ∈ l := by
  unfold shuffle_within_score_bands at hx
  rw [List.mem_flatten] at hx
  obtain ⟨band, hband, hxb⟩ := hx
  rw [List.mem_map] at hband
  obtain ⟨b0, hb0, rfl⟩ := hband
  exact (mem_split_bands l x).mp (List.mem_flatten.mpr ⟨b0, hb0, (hσ b0).mem_iff.mp hxb⟩)

theorem mem_collect_candidates (excl : List ℕ) :
    ∀ (l : List Hit) (seen : List ℕ) (p : ℕ × ℚ), p ∈ collect_candidates excl l seen →
      ∃ h ∈ l, h.item.tmdb_id = p.1 ∧ h.score = p.2 := by
  intro l
  induction l with
  | nil => intro seen p hp; simp [collect_candidates] at hp
  | cons h t ih =>
    intro seen p hp
    simp only [collect_candidates] at hp
    split_ifs at hp with hmem
    · obtain ⟨h', hh', he⟩ := ih _ p hp
      exact ⟨h', List.mem_cons_of_mem _ hh', he⟩
    · rcases List.mem_cons.mp hp with rfl | hp'
      · exact ⟨h, List.mem_cons_self _ _, rfl, rfl⟩
      · obtain ⟨h', hh', he⟩ := ih _ p hp'
        exact ⟨h', List.mem_cons_of_mem _ hh', he⟩

theorem snd_mem_of_mem_enumFrom {α : Type} :
    ∀ (l : List α) (n : ℕ) (p : ℕ × α), p ∈ l.enumFrom n → p.2 ∈ l := by
  intro l
  induction l with
  | nil => intro n p hp; simp [List.enumFrom] at hp
  | cons a t ih =>
    intro n p hp
    rcases List.mem_cons.mp hp with rfl | hp'
    · exact List.mem_cons_self _ _
    · exact List.mem_cons_of_mem _ (ih (n + 1) p hp')

theorem mem_faiss_search (vectors : List Vec) (q : Vec) (k : ℕ) (p : ℕ × ℚ)
    (hp : p ∈ faiss_search vectors q k) : ∃ v ∈ vectors, p.2 = dot q v := by
  unfold faiss_search at hp
  have hp' := List.mem_of_mem_take hp
  rw [mem_sortDescBy_iff, List.mem_map] at hp'
  obtain ⟨⟨i, v⟩, hmem, rfl⟩ := hp'
  exact ⟨v, snd_mem_of_mem_enumFrom vectors 0 (i, v) hmem, rfl⟩

theorem mem_search_loop_pairs (data : List Item) (ct : Option String) (topK : ℕ) :
    ∀ (l : List (ℕ × ℚ)) (count : ℕ) (h : Hit), h ∈ search_loop data ct topK l count →
      ∃ p ∈ l, h.score = p.2 := by
  intro l
  induction l with
  | nil => intro count h hh; simp [search_loop] at hh
  | cons p t ih =>
    intro count h hh
    obtain ⟨idx, score⟩ := p
    simp only [search_loop] at hh
    by_cases hidx : idx < data.length
    · rw [dif_pos hidx] at hh
      split_ifs at hh with hct hstop
      · obtain ⟨p', hp', he⟩ := ih _ h hh
        exact ⟨p', List.mem_cons_of_mem _ hp', he⟩
      · rw [List.mem_singleton] at hh
        exact ⟨(idx, score), List.mem_cons_self _ _, by rw [hh]⟩
      · rcases List.mem_cons.mp hh with rfl | hh'
        · exact ⟨(idx, score), List.mem_cons_self _ _, rfl⟩
        · obtain ⟨p', hp', he⟩ := ih _ h hh'
          exact ⟨p', List.mem_cons_of_mem _ hp', he⟩
    · rw [dif_neg hidx] at hh
      obtain ⟨p', hp', he⟩ := ih _ h hh
      exact ⟨p', List.mem_cons_of_mem _ hp', he⟩

theorem mem_search_scores (st : IndexState) (q : Vec) (topK : ℕ) (ct : Option String)
    (h : Hit) (hh : h ∈ search_similar_content st q topK ct) :
    ∃ v ∈ st.vectors, h.score = dot q v := by
  unfold search_similar_content at hh
  split_ifs at hh with hempty
  · simp at hh
  · obtain ⟨p, hp, he⟩ := mem_search_loop_pairs st.content_data ct topK _ 0 h hh
    obtain ⟨v, hv, he'⟩ := mem_faiss_search st.vectors q (topK * 2) p hp
    exact ⟨v, hv, by rw [he, he']⟩

theorem passes_details_isSome (fetch : String → ℕ → Option TmdbDetails) (ct : String)
    (tmdb : ℕ) (h : passes_details fetch ct tmdb = true) : (fetch ct tmdb).isSome := by
  unfold passes_details at h
  cases hf : fetch ct tmdb with
  | none => rw [hf] at h; simp at h
  | some d => simp

theorem mem_build_ranked (fetch : String → ℕ → Option TmdbDetails) (ct : String) :
    ∀ (l : List (ℕ × ℚ)) (len : ℕ) (r : CleanRec), r ∈ build_ranked fetch ct l len →
      ∃ p ∈ l, r.tmdb_id = p.1 ∧ r.similarity_score = pyRound (p.2 * 100) := by
  intro l
  induction l with
  | nil => intro len r hr; simp [build_ranked] at hr
  | cons c t ih =>
    intro len r hr
    simp only [build_ranked] at hr
    cases hf : fetch ct c.1 with
    | none =>
      rw [hf] at hr
      obtain ⟨p, hp, he⟩ := ih _ r hr
      exact ⟨p, List.mem_cons_of_mem _ hp, he⟩
    | some d =>
      rw [hf] at hr
      rcases List.mem_cons.mp hr with rfl | hr'
      · exact ⟨c, List.mem_cons_self _ _, rfl, rfl⟩
      · obtain ⟨p, hp, he⟩ := ih _ r hr'
        exact ⟨p, List.mem_cons_of_mem _ hp, he⟩

theorem build_ranked_ranks (fetch : String → ℕ → Option TmdbDetails) (ct : String) :
    ∀ (l : List (ℕ × ℚ)) (len : ℕ), (∀ p ∈ l, (fetch ct p.1).isSome) →
      (build_ranked fetch ct l len).map CleanRec.rank = List.range' (len + 1) l.length := by
  intro l
  induction l with
  | nil => intro len _; simp [build_ranked]
  | cons c t ih =>
    intro len hall
    have hc := hall c (List.mem_cons_self _ _)
    cases hf : fetch ct c.1 with
    | none => rw [hf] at hc; simp at hc
    | some d =>
      simp only [build_ranked, hf, List.map_cons, List.length_cons]
      rw [ih (len + 1) (fun p hp => hall p (List.mem_cons_of_mem _ hp))]
      rw [List.range'_succ]
      rfl

theorem build_ranked_pairwise (fetch : String → ℕ → Option TmdbDetails) (ct : String) :
    ∀ (l : List (ℕ × ℚ)) (len : ℕ), l.Pairwise (fun a b => b.2 ≤ a.2) →
      (build_ranked fetch ct l len).Pairwise
        (fun a b => b.similarity_score ≤ a.similarity_score) := by
  intro l
  induction l with
  | nil => intro len _; simp [build_ranked]
  | cons c t ih =>
    intro len hl
    rcases List.pairwise_cons.mp hl with ⟨hc, ht⟩
    simp only [build_ranked]
    cases hf : fetch ct c.1 with
    | none => exact ih _ ht
    | some d =>
      refine List.pairwise_cons.mpr ⟨?_, ih _ ht⟩
      intro r hr
      obtain ⟨p, hp, -, he⟩ := mem_build_ranked fetch ct t (len + 1) r hr
      rw [he]
      show pyRound (p.2 * 100) ≤ (build_clean_rec c.1 ct d c.2 len).similarity_score
      show pyRound (p.2 * 100) ≤ pyRound (c.2 * 100)
      exact pyRound_mono (by nlinarith [hc p hp])

theorem pyRound_bounds {s : ℚ} (hlo : -1 ≤ s) (hhi : s ≤ 1) :
    -100 ≤ pyRound (s * 100) ∧ pyRound (s * 100) ≤ 100 := by
  constructor
  · have := pyRound_mono (show ((-100 : ℤ) : ℚ) ≤ s * 100 by push_cast; nlinarith)
    rwa [pyRound_intCast] at this
  · have := pyRound_mono (show s * 100 ≤ ((100 : ℤ) : ℚ) by push_cast; nlinarith)
    rwa [pyRound_intCast] at this

theorem stable_page_enrich_spec (fetch : String → ℕ → Option TmdbDetails) (ct : String)
    (cands : List (ℕ × ℚ)) (page : ℕ)
    (hsorted : cands.Pairwise (fun a b => b.2 ≤ a.2)) :
    ((stable_page_enrich fetch ct cands page).map CleanRec.rank
        = List.range' 1 (stable_page_enrich fetch ct cands page).length) ∧
    (stable_page_enrich fetch ct cands page).Pairwise
        (fun a b => b.similarity_score ≤ a.similarity_score) ∧
    (∀ r ∈ stable_page_enrich fetch ct cands page,
        ∃ p ∈ cands, r.tmdb_id = p.1 ∧ r.similarity_score = pyRound (p.2 * 100)) := by
  have hsub : (((cands.drop ((min (max page 1) MAX_PAGES - 1) * PAGE_SIZE)).filter
        (fun c => passes_details fetch ct c.1)).take PAGE_SIZE).Sublist cands :=
    ((List.take_sublist _ _).trans (List.filter_sublist _)).trans (List.drop_sublist _ _)
  have hkeptsorted := List.Pairwise.sublist hsub hsorted
  have hsome : ∀ p ∈ ((cands.drop ((min (max page 1) MAX_PAGES - 1) * PAGE_SIZE)).filter
      (fun c => passes_details fetch ct c.1)).take PAGE_SIZE, (fetch ct p.1).isSome := by
    intro p hp
    have h1 : p ∈ (cands.drop ((min (max page 1) MAX_PAGES - 1) * PAGE_SIZE)).filter
        (fun c => passes_details fetch ct c.1) := List.mem_of_mem_take hp
    have h2 := (List.mem_filter.mp h1).2
    exact passes_details_isSome fetch ct p.1 h2
  have hranks := build_ranked_ranks fetch ct _ 0 hsome
  refine ⟨?_, build_ranked_pairwise fetch ct _ 0 hkeptsorted, ?_⟩
  · have hlen : (stable_page_enrich fetch ct cands page).length
        = (((cands.drop ((min (max page 1) MAX_PAGES - 1) * PAGE_SIZE)).filter
            (fun c => passes_details fetch ct c.1)).take PAGE_SIZE).length := by
      have := congrArg List.length hranks
      simpa [stable_page_enrich] using this
    rw [stable_page_enrich] at hlen ⊢
    simp only at hranks hlen ⊢
    rw [hranks, hlen]
  · intro r hr
    obtain ⟨p, hp, hid, hsim⟩ := mem_build_ranked fetch ct _ 0 r hr
    exact ⟨p, hsub.subset hp, hid, hsim⟩

theorem mem_search_by_emotion_scores (σ : List Hit → List Hit) (st : IndexState)
    (encode : String → Vec) (ct text : String)
    (hσ : ∀ b : List Hit, (σ b).Perm b) (h : Hit)
    (hh : h ∈ search_by_emotion_or_text σ st encode ct text) :
    ∃ v ∈ st.vectors, h.score = dot (encode text) v := by
  cases hq : get_emotion_embedding encode text with
  | none => simp [search_by_emotion_or_text, hq] at hh
  | some q =>
    have hqe : q = encode text := by
      unfold get_emotion_embedding at hq
      split_ifs at hq
      exact (Option.some_inj.mp hq).symm
    simp only [search_by_emotion_or_text, hq] at hh
    have hh' := mem_shuffle_within_score_bands σ hσ _ h hh
    rw [← hqe]
    exact mem_search_scores st q EMBEDDING_TOP_K (some ct) h hh'

def c7_state : IndexState :=
  ⟨[[1, 0], [-1, 0]],
   [⟨1, "movie", 7, "a", some [1, 0]⟩, ⟨2, "movie", 7, "b", some [-1, 0]⟩]⟩

/-- C7 counterexample.  The claim: every served `similarity_score` lies in
`[0, 100]`.  A two-item index whose second vector points opposite the query
serves a page `[100, -100]`: negative inner products are rounded and served
unclamped. -/
theorem C7_negative_similarity_counterexample :
    ((get_emotion_based_recommendations id c7_state c6_fetch c6_encode
        [] "t" "movie" 1).recommendations.map (fun r => r.similarity_score))
      = [100, -100] ∧
    ¬ ((0 : ℤ) ≤ -100 ∧ (-100 : ℤ) ≤ 100) := by
  decide

/-- C7 amended.  In every page served by `get_emotion_based_recommendations`
(for any shuffle outcome `σ` and any index whose inner products against the
query are cosines, i.e. lie in `[-1, 1]` — automatic for unit vectors), each
item's `similarity_score` equals `round(score * 100)` for the inner-product
score `score` of the search hit it was built from, lies in `[-100, 100]`
(NOT `[0, 100]`: negative scores are served unclamped), and is a
non-increasing function of `rank`; the served ranks are `1, 2, ...` in order. -/
theorem C7_served_page_scores (σ : List Hit → List Hit) (st : IndexState)
    (fetch : String → ℕ → Option TmdbDetails) (encode : String → Vec)
    (watched : List ℕ) (text ct : String) (page : ℕ)
    (hσ : ∀ b : List Hit, (σ b).Perm b)
    (hvec : ∀ v ∈ st.vectors, -1 ≤ dot (encode text) v ∧ dot (encode text) v ≤ 1) :
    ((get_emotion_based_recommendations σ st fetch encode watched text ct page).recommendations.map
        CleanRec.rank
      = List.range' 1
        (get_emotion_based_recommendations σ st fetch encode watched text ct page).recommendations.length) ∧
    ((get_emotion_based_recommendations σ st fetch encode watched text ct page).recommendations.Pairwise
        (fun a b => b.similarity_score ≤ a.similarity_score)) ∧
    (∀ r ∈ (get_emotion_based_recommendations σ st fetch encode watched text ct page).recommendations,
      (∃ h ∈ search_by_emotion_or_text σ st encode ct text,
          h.item.tmdb_id = r.tmdb_id ∧ r.similarity_score = pyRound (h.score * 100)) ∧
      -100 ≤ r.similarity_score ∧ r.similarity_score ≤ 100) := by
  have hrecs : (get_emotion_based_recommendations σ st fetch encode watched text ct page).recommendations
      = stable_page_enrich fetch ct
          (sortDescBy (fun c => c.2)
            ((collect_candidates watched (search_by_emotion_or_text σ st encode ct text) []).take
              MAX_RECOMMENDATIONS))
          (min (max page 1) MAX_PAGES) := rfl
  have hsorted := sortDescBy_sorted (fun c : ℕ × ℚ => c.2)
    ((collect_candidates watched (search_by_emotion_or_text σ st encode ct text) []).take
      MAX_RECOMMENDATIONS)
  obtain ⟨hranks, hpw, hmem⟩ := stable_page_enrich_spec fetch ct _ (min (max page 1) MAX_PAGES) hsorted
  rw [hrecs]
  refine ⟨hranks, hpw, ?_⟩
  intro r hr
  obtain ⟨p, hp, hid, hsim⟩ := hmem r hr
  rw [mem_sortDescBy_iff] at hp
  obtain ⟨h, hh, hhid, hhs⟩ :=
    mem_collect_candidates watched _ [] p (List.mem_of_mem_take hp)
  refine ⟨⟨h, hh, by rw [hhid, hid], by rw [hsim, hhs]⟩, ?_⟩
  obtain ⟨v, hv, hscore⟩ := mem_search_by_emotion_scores σ st encode ct text hσ h hh
  obtain ⟨hlo, hhi⟩ := hvec v hv
  rw [hsim, ← hhs]
  exact pyRound_bounds (by rw [hscore]; exact hlo) (by rw [hscore]; exact hhi)

/-- Witness for `C7_served_page_scores` on the concrete two-item index of the
C7 counterexample state (whose inner products against the query are ±1). -/
theorem C7_served_page_scores_witness :
    ((get_emotion_based_recommendations id c7_state c6_fetch c6_encode
        [] "t" "movie" 1).recommendations.map CleanRec.rank
      = List.range' 1
        (get_emotion_based_recommendations id c7_state c6_fetch c6_encode
          [] "t" "movie" 1).recommendations.length) ∧
    ((get_emotion_based_recommendations id c7_state c6_fetch c6_encode
        [] "t" "movie" 1).recommendations.Pairwise
        (fun a b => b.similarity_score ≤ a.similarity_score)) := by
  have h := C7_served_page_scores id c7_state c6_fetch c6_encode [] "t" "movie" 1
    (fun b => List.Perm.refl b) (by decide)
  exact ⟨h.1, h.2.1⟩

end Parotia
